import Mathlib

/-!
# Verification of the handtrack.js-node detection pipeline

A shallow embedding of the core detection pipeline of `src/index.ts`
(class `ObjectDetection` and its helper functions), together with proofs
about its behaviour.  JavaScript numbers are modelled with exact rational
arithmetic `ℚ`; the special values produced by division by zero are
modelled by the inductive type `JsNumber`.  Fallible operations return
`Except`.
-/

namespace Handtrack

/-- Model of a JavaScript number: a finite (exact rational) value or one of
the special IEEE values produced by operations such as division by zero. -/
inductive JsNumber where
  | finite (q : ℚ)
  | posInf
  | negInf
  | nan
  deriving DecidableEq

/-- JavaScript division on numbers: finite division is exact; a nonzero
numerator divided by zero yields a signed infinity, and `0 / 0` yields NaN. -/
def jsDiv : JsNumber → JsNumber → JsNumber
  | .finite a, .finite b =>
    if b = 0 then
      if 0 < a then .posInf else if a < 0 then .negInf else .nan
    else .finite (a / b)
  | .posInf, .finite _ => .posInf
  | .negInf, .finite _ => .negInf
  | _, _ => .nan

/-- JavaScript `Math.round`: rounds a finite value to the nearest integer,
half-way cases toward positive infinity; the special values are fixed points. -/
def jsRound : JsNumber → JsNumber
  | .finite q => .finite ((⌊q + 1/2⌋ : ℤ) : ℚ)
  | x => x

/-- Truncation toward zero of a rational number, as performed implicitly by
the JavaScript `%` operator on its quotient. -/
def ratTrunc (q : ℚ) : ℤ :=
  if 0 ≤ q then ⌊q⌋ else ⌈q⌉

/-- The JavaScript `%` (remainder) operator on finite numbers:
`a % b = a - b * trunc (a / b)`, keeping the sign of the dividend. -/
def jsFmod (a b : ℚ) : ℚ :=
  a - b * ratTrunc (a / b)

/-- `Number.MIN_VALUE`, the smallest positive representable double,
`2 ^ (-1074)`.  Used by `calculateMaxScores` as the initial value of its
running maximum. -/
def numberMinValue : ℚ := 1 / 2 ^ 1074

/-- Embedding of `getValidResolution` (src/index.ts lines 292-295):
`evenResolution = inputDimension * imageScaleFactor - 1`, and the result is
`evenResolution - (evenResolution % outputStride) + 1`, with `%` the
JavaScript remainder. -/
def getValidResolution (imageScaleFactor : ℚ) (inputDimension : ℕ)
    (outputStride : ℕ) : ℚ :=
  let evenResolution : ℚ := (inputDimension : ℚ) * imageScaleFactor - 1
  evenResolution - jsFmod evenResolution (outputStride : ℚ) + 1

/-- The inner loop of `calculateMaxScores` for one box: scans the scores
`f 0, f 1, ..., f (n-1)` in order, starting from the sentinel pair
`(Number.MIN_VALUE, -1)` and replacing it whenever a score is strictly
greater than the running maximum. -/
def maxScan (f : ℕ → ℚ) : ℕ → ℚ × ℤ
  | 0 => (numberMinValue, -1)
  | n + 1 =>
    let p := maxScan f n
    if p.1 < f n then (f n, (n : ℤ)) else p

/-- Embedding of `calculateMaxScores` (src/index.ts lines 310-327): for each
box `i` in `[0, numBoxes)` it scans the flat buffer entries
`scores[i * numClasses + j]` for `j` in `[0, numClasses)` with a strict `>`
comparison against a running maximum initialised to `Number.MIN_VALUE` with
class index `-1`; returns the per-box maxima and their class indexes. -/
def calculateMaxScores (scores : List ℚ) (numBoxes numClasses : ℕ) :
    List ℚ × List ℤ :=
  let pairs := (List.range numBoxes).map
    (fun i => maxScan (fun j => scores.getD (i * numClasses + j) 0) numClasses)
  (pairs.map Prod.fst, pairs.map Prod.snd)

/-- A box in normalized coordinates, in the order the network emits them:
`[minY, minX, maxY, maxX]`. -/
structure NBox where
  yMin : ℚ
  xMin : ℚ
  yMax : ℚ
  xMax : ℚ
  deriving DecidableEq

/-- The box stored at index `i` of a flat `[minY, minX, maxY, maxX]` buffer. -/
def boxAt (boxes : List ℚ) (i : ℕ) : NBox :=
  ⟨boxes.getD (4 * i) 0, boxes.getD (4 * i + 1) 0,
   boxes.getD (4 * i + 2) 0, boxes.getD (4 * i + 3) 0⟩

/-- Area of a box, clamping inverted extents to zero. -/
def boxArea (b : NBox) : ℚ :=
  max (b.yMax - b.yMin) 0 * max (b.xMax - b.xMin) 0

/-- Area of the intersection of two boxes. -/
def interArea (a b : NBox) : ℚ :=
  max (min a.yMax b.yMax - max a.yMin b.yMin) 0 *
    max (min a.xMax b.xMax - max a.xMin b.xMin) 0

/-- Intersection-over-union of two boxes: the ratio of the overlap area to
the union area, `0` when the union is degenerate. -/
def iou (a b : NBox) : ℚ :=
  let ia := interArea a b
  let ua := boxArea a + boxArea b - ia
  if ua ≤ 0 then 0 else ia / ua

/-- Modelled from the spec (section 4.3 Suppressor): the greedy selection
loop of non-max suppression, which `src/index.ts` delegates to the external
library call `tfnode.image.nonMaxSuppression` (lines 168-174) and which is
therefore not code under `src/`.  Candidates, already sorted by descending
score, are taken in order; a candidate is accepted when its
intersection-over-union with every previously accepted box does not exceed
the threshold, and at most `fuel` further boxes are accepted. -/
def nmsGo (getBox : ℕ → NBox) (iouThreshold : ℚ) :
    List ℕ → ℕ → List ℕ
  | [], _ => []
  | _ :: _, 0 => []
  | c :: cs, fuel + 1 =>
    c :: nmsGo getBox iouThreshold
      (cs.filter (fun j => decide (iou (getBox j) (getBox c) ≤ iouThreshold)))
      fuel

/-- Modelled from the spec (section 4.3 Suppressor): non-max suppression
over a flat box buffer and a scores array.  Keeps the indexes whose score is
not below `scoreThreshold`, orders them by descending score (ties keeping
index order), and greedily accepts at most `maxOutputSize` of them whose
pairwise intersection-over-union does not exceed `iouThreshold`. -/
def nonMaxSuppression (boxes : List ℚ) (scores : List ℚ)
    (maxOutputSize : ℕ) (iouThreshold scoreThreshold : ℚ) : List ℕ :=
  let candidates := (List.range scores.length).filter
    (fun i => decide (scoreThreshold ≤ scores.getD i 0))
  let sorted := List.insertionSort
    (fun a b => scores.getD b 0 ≤ scores.getD a 0) candidates
  nmsGo (boxAt boxes) iouThreshold sorted maxOutputSize

/-- A detection result: pixel-space bounding box `[x, y, w, h]`, class index
and confidence score (the `predictions` record type of the source). -/
structure Prediction where
  bbox : List ℚ
  cls : ℤ
  score : ℚ
  deriving DecidableEq

/-- Embedding of `ObjectDetection.buildDetectedObjects` (src/index.ts lines
196-219): for each selected index, reads the normalized box from the flat
buffer, scales `minX`/`maxX` by `width` and `minY`/`maxY` by `height`, and
emits `bbox = [minX, minY, maxX - minX, maxY - minY]` in pixel space together
with the class and score stored at that index.  No horizontal inversion is
applied anywhere; the function does not depend on `flipHorizontal`. -/
def buildDetectedObjects (width height : ℚ) (boxes scores : List ℚ)
    (indexes : List ℕ) (classes : List ℤ) : List Prediction :=
  indexes.map (fun idx =>
    let b := boxAt boxes idx
    let minY := b.yMin * height
    let minX := b.xMin * width
    let maxY := b.yMax * height
    let maxX := b.xMax * width
    { bbox := [minX, minY, maxX - minX, maxY - minY],
      cls := classes.getD idx (-1),
      score := scores.getD idx 0 })

/-- Definition following the spec's words (section 4.4 Coordinate Mapper),
for comparison with `buildDetectedObjects`:
`x = minX*width`, `y = minY*height`, `w = (maxX*width) - x`,
`h = (maxY*height) - y`. -/
def toPixelBox (nb : NBox) (width height : ℚ) : List ℚ :=
  [nb.xMin * width, nb.yMin * height,
   nb.xMax * width - nb.xMin * width, nb.yMax * height - nb.yMin * height]

/-- Definition following the spec's words for claim C1: the Coordinate
Mapper with the claimed horizontal inversion applied to the pixel-space x
coordinate (un-mirroring a box produced from a horizontally mirrored frame
back into the original frame: `x := width - x - w`). -/
def toPixelBoxMirrored (nb : NBox) (width height : ℚ) : List ℚ :=
  let px := toPixelBox nb width height
  [width - px.getD 0 0 - px.getD 2 0, px.getD 1 0, px.getD 2 0, px.getD 3 0]

/-- The recognized model parameters (the `defaultParams` keys of the
source); `modelType` only selects the packaged model file and is omitted
from the numeric pipeline. -/
structure ModelParams where
  flipHorizontal : Bool
  outputStride : ℕ
  imageScaleFactor : ℚ
  maxNumBoxes : ℕ
  iouThreshold : ℚ
  scoreThreshold : ℚ
  deriving DecidableEq

/-- The `defaultParams` object of src/index.ts lines 17-25. -/
def defaultParams : ModelParams :=
  { flipHorizontal := true
    outputStride := 16
    imageScaleFactor := 7 / 10
    maxNumBoxes := 20
    iouThreshold := 1 / 2
    scoreThreshold := 99 / 100 }

/-- The loaded graph model handle.  `GraphModel.dispose` only marks it
disposed; the `ObjectDetection` instance keeps its reference. -/
structure GraphModel where
  disposed : Bool
  deriving DecidableEq

/-- The mutable state of an `ObjectDetection` instance: its parameters, the
`fps` field (which the class declares but the constructor leaves undefined,
modelled as `none`), and the `model` field (undefined until `load`
succeeds). -/
structure Pipeline where
  modelParams : ModelParams
  fps : Option JsNumber
  model : Option GraphModel
  deriving DecidableEq

/-- The ways a `detect` call can fail.  `typeErrorUndefined` is the
JavaScript `TypeError` raised by reading `executeAsync` of the undefined
`this.model`; `engineDisposed` models the inference engine's own failure
when `executeAsync` is invoked on a model whose `dispose` ran (the
repository performs no state check of its own); `invalidState` is the
`InvalidStateError` named by the spec, which no code path produces;
`inferenceRejected` is a rejection of the `executeAsync` promise itself. -/
inductive JsError where
  | typeErrorUndefined
  | engineDisposed
  | invalidState
  | inferenceRejected
  deriving DecidableEq

/-- The outcome of one `model.executeAsync` call, supplied by the
environment: either the two flattened output tensors with the shape entries
the source reads (`result[0].shape[1]`, `result[0].shape[2]`,
`result[1].shape[1]`, `result[1].shape[3]`), or a rejected promise. -/
inductive InferOutcome where
  | ok (scores : List ℚ) (scoresShape1 scoresShape2 : ℕ)
       (boxes : List ℚ) (boxesShape1 boxesShape3 : ℕ)
  | fail
  deriving DecidableEq

/-- The constructor of `ObjectDetection` (src/index.ts lines 80-85): stores
the parameters; neither `fps` nor `model` is initialised. -/
def mkObjectDetection (params : ModelParams) : Pipeline :=
  { modelParams := params, fps := none, model := none }

/-- Embedding of `ObjectDetection.load` (src/index.ts lines 87-104): sets
`fps := 0`, loads the graph model and runs a discarded warm-up inference.
On any failure the source calls `process.exit(1)`, modelled as the error
branch of the `Except`. -/
def load (p : Pipeline) (loadSucceeds : Bool) : Except Unit Pipeline :=
  if loadSucceeds then
    .ok { p with fps := some (.finite 0), model := some { disposed := false } }
  else .error ()

/-- The preprocessing stage of `detect` (src/index.ts lines 128-141) on a
frame modelled as rows of pixels: when `flipHorizontal` is set the image
tensor is reversed along axis 1 (each row reversed, a horizontal mirror)
before the resize; otherwise it is resized unchanged.  The bilinear resize
and batch dimension are opaque numeric steps shared by both branches,
abstracted by `resize`. -/
def preprocess {α : Type} (flipHorizontal : Bool)
    (resize : List (List α) → List (List α)) (frame : List (List α)) :
    List (List α) :=
  if flipHorizontal then resize (frame.map List.reverse) else resize frame

/-- Embedding of `ObjectDetection.detect` (src/index.ts lines 106-194).
The frame's `height`/`width`, the inference outcome and the elapsed
wall-clock milliseconds are environment inputs.  Reading `executeAsync` of
an undefined `this.model` throws a `TypeError`; calling it on a disposed
model fails in the engine; a rejected inference promise propagates with
nothing further run (the `.then` callback is skipped).  On success: the
scores and boxes are read out, `calculateMaxScores` runs on
`result[0].shape[1]` x `result[0].shape[2]`, non-max suppression runs on
the flat `boxes` and (as in the source) the flat `scores` buffer with the
configured thresholds, `buildDetectedObjects` maps the survivors to pixel
space using the original `width`/`height`, and `fps` is set to
`Math.round(1000 / elapsedMs)`. -/
def detect (p : Pipeline) (height width : ℕ) (outcome : InferOutcome)
    (elapsedMs : ℚ) : Except JsError (Pipeline × List Prediction) :=
  match p.model with
  | none => .error .typeErrorUndefined
  | some m =>
    if m.disposed then .error .engineDisposed
    else
      match outcome with
      | .fail => .error .inferenceRejected
      | .ok scores scoresShape1 scoresShape2 boxes _boxesShape1 _boxesShape3 =>
        let maxClasses := calculateMaxScores scores scoresShape1 scoresShape2
        let classes := maxClasses.2
        let indexes := nonMaxSuppression boxes scores
          p.modelParams.maxNumBoxes p.modelParams.iouThreshold
          p.modelParams.scoreThreshold
        let preds := buildDetectedObjects (width : ℚ) (height : ℚ)
          boxes scores indexes classes
        let fpsNew := jsRound (jsDiv (.finite 1000) (.finite elapsedMs))
        .ok ({ p with fps := some fpsNew }, preds)

/-- Embedding of `ObjectDetection.getFPS` (src/index.ts lines 221-223):
returns the `fps` field (undefined, modelled `none`, when never set). -/
def getFPS (p : Pipeline) : Option JsNumber :=
  p.fps

/-- Embedding of `ObjectDetection.dispose` (src/index.ts lines 285-289):
when `this.model` is set, disposes it; the reference is kept and no state
flag of the `ObjectDetection` instance changes. -/
def dispose (p : Pipeline) : Pipeline :=
  match p.model with
  | some m => { p with model := some { m with disposed := true } }
  | none => p

/-- Embedding of `ObjectDetection.setModelParameters` (src/index.ts lines
225-227) for a full-record update. -/
def setModelParameters (p : Pipeline) (params : ModelParams) : Pipeline :=
  { p with modelParams := params }

/-- Embedding of `ObjectDetection.getModelParameters` (src/index.ts lines
229-231). -/
def getModelParameters (p : Pipeline) : ModelParams :=
  p.modelParams

/-- A heap of engine tensors for tracking resource hygiene: `next` is the
next fresh id, `live` the ids allocated and not yet disposed. -/
structure TensorHeap where
  next : ℕ
  live : List ℕ
  deriving DecidableEq

/-- Allocate a fresh tensor. -/
def TensorHeap.alloc (h : TensorHeap) : ℕ × TensorHeap :=
  (h.next, { next := h.next + 1, live := h.next :: h.live })

/-- Dispose a tensor. -/
def TensorHeap.release (h : TensorHeap) (id : ℕ) : TensorHeap :=
  { h with live := h.live.erase id }

/-- Tensor-liveness model of one `detect` call (src/index.ts lines
128-193), tracking every transient tensor `detect` keeps outside a `tidy`
scope.  The `batched` input tensor is allocated first (the `tidy` at lines
128-141 frees its intermediates and keeps the returned tensor).  When
`executeAsync` resolves, the two result tensors exist, `batched.dispose()`
and `tfnode.dispose(result)` run (lines 151-152), and the `indexTensor`
is allocated in a `tidy` and disposed at line 177.  When `executeAsync`
rejects, the `.then` callback containing every `dispose` call is skipped
and nothing is freed — there is no rejection handler in the source.
Returns the final heap together with the id of the `batched` tensor. -/
def detectTensors (inferSucceeds : Bool) (h : TensorHeap) :
    TensorHeap × ℕ :=
  let (batchedId, h1) := h.alloc
  if inferSucceeds then
    let (r0, h2) := h1.alloc
    let (r1, h3) := h2.alloc
    let h4 := h3.release batchedId
    let h5 := (h4.release r0).release r1
    let (idxId, h6) := h5.alloc
    let h7 := h6.release idxId
    (h7, batchedId)
  else
    (h1, batchedId)

/-- A pipeline in the Ready state: `load` has completed, so `fps` was set
and a non-disposed model is held.  `load p true` returns exactly
`readyPipeline p.modelParams (some (JsNumber.finite 0))`. -/
def readyPipeline (params : ModelParams) (fps0 : Option JsNumber) : Pipeline :=
  { modelParams := params, fps := fps0, model := some { disposed := false } }

/-! ## Claim theorems -/

/-- C4: for every dimension `d > 0`, scale factor `0 < s ≤ 1` and stride
`≥ 1`, `getValidResolution` computes `e = d * s - 1` and returns
`e - (e mod stride) + 1`, and the returned value is congruent to `1`
modulo the stride: it equals `stride * k + 1` for an integer `k`. -/
theorem getValidResolution_congruent_one (s : ℚ) (d stride : ℕ)
    (hd : 0 < d) (hs0 : 0 < s) (hs1 : s ≤ 1) (hstride : 1 ≤ stride) :
    getValidResolution s d stride =
      ((d : ℚ) * s - 1) - jsFmod ((d : ℚ) * s - 1) (stride : ℚ) + 1 ∧
    ∃ k : ℤ, getValidResolution s d stride = (stride : ℚ) * (k : ℚ) + 1 := by
  constructor
  · rfl
  · refine ⟨ratTrunc (((d : ℚ) * s - 1) / (stride : ℚ)), ?_⟩
    unfold getValidResolution jsFmod
    ring

/-- Witness for C4 at `d = 300`, `s = 7/10`, `stride = 16`: the resolution
`209` satisfies `209 = 16 * 13 + 1`. -/
theorem getValidResolution_congruent_one_witness :
    getValidResolution (7/10) 300 16 =
      ((300 : ℚ) * (7/10) - 1) - jsFmod ((300 : ℚ) * (7/10) - 1) (16 : ℚ) + 1 ∧
    ∃ k : ℤ, getValidResolution (7/10) 300 16 = (16 : ℚ) * (k : ℚ) + 1 :=
  getValidResolution_congruent_one (7/10) 300 16 (by norm_num) (by norm_num)
    (by norm_num) (by norm_num)

/-- C8: for every score buffer and every box count, when `numClasses = 0`
the per-class loop of `calculateMaxScores` never runs, so every box keeps
the sentinel class `-1` and the sentinel maximum `Number.MIN_VALUE`. -/
theorem calculateMaxScores_zero_classes (scores : List ℚ) (numBoxes : ℕ) :
    calculateMaxScores scores numBoxes 0 =
      (List.replicate numBoxes numberMinValue, List.replicate numBoxes (-1)) := by
  simp [calculateMaxScores, maxScan, List.map_map, Function.comp,
    List.eq_replicate_iff, List.mem_map]

/-- C10: a successful `detect` call whose measured elapsed wall-clock time
is `0` milliseconds stores `Infinity` as the FPS value: `1000 / 0` is the
unguarded JavaScript division, yielding positive infinity, which
`Math.round` keeps, and `getFPS` then returns it. -/
theorem detect_zero_elapsed_fps_infinity (params : ModelParams)
    (fps0 : Option JsNumber) (height width : ℕ) (scores : List ℚ)
    (s1 s2 : ℕ) (boxes : List ℚ) (b1 b3 : ℕ) (p' : Pipeline)
    (preds : List Prediction)
    (hrun : detect (readyPipeline params fps0) height width
        (.ok scores s1 s2 boxes b1 b3) 0 = .ok (p', preds)) :
    getFPS p' = some JsNumber.posInf := by
  simp only [detect, readyPipeline, jsDiv, jsRound] at hrun
  norm_num at hrun
  obtain ⟨hp, _⟩ := hrun
  simp [getFPS, ← hp]

/-- Witness for C10: a concrete successful zero-elapsed `detect` call whose
resulting pipeline reports `Infinity` FPS. -/
theorem detect_zero_elapsed_fps_infinity_witness :
    getFPS (readyPipeline defaultParams (some JsNumber.posInf)) =
      some JsNumber.posInf :=
  detect_zero_elapsed_fps_infinity defaultParams (some (.finite 0)) 200 100
    [995/1000] 1 1 [1/10, 2/10, 6/10, 5/10] 1 4 _
    [{ bbox := [20, 20, 30, 100], cls := 0, score := 995/1000 }]
    (by norm_num [detect, readyPipeline, defaultParams, calculateMaxScores,
      maxScan, numberMinValue, List.range_succ, nonMaxSuppression,
      List.insertionSort, List.orderedInsert, nmsGo, iou, interArea, boxArea,
      boxAt, buildDetectedObjects, jsRound, jsDiv])

/-- C6 counterexample: `detect` on a freshly constructed (Unloaded)
pipeline fails with the `TypeError` of reading `executeAsync` on the
undefined `this.model`, and `detect` after `dispose` fails with the
engine's disposed-model error; neither is the `InvalidStateError` the
claim requires. -/
theorem detect_no_invalid_state_error_counterexample :
    detect (mkObjectDetection defaultParams) 5 5 .fail 1 =
      .error .typeErrorUndefined ∧
    detect (dispose (readyPipeline defaultParams (some (.finite 0)))) 5 5
      .fail 1 = .error .engineDisposed ∧
    JsError.typeErrorUndefined ≠ JsError.invalidState ∧
    JsError.engineDisposed ≠ JsError.invalidState :=
  ⟨rfl, rfl, by decide, by decide⟩

/-- C6 (amended): `detect` performs no state check of its own; on an
Unloaded pipeline it fails with the `TypeError` from the undefined model,
on a Disposed pipeline it invokes the still-held disposed model and fails
with the engine's error, and no `detect` call ever produces an
`InvalidStateError`. -/
theorem detect_state_machine_errors :
    (∀ p h w o e, p.model = none →
      detect p h w o e = .error .typeErrorUndefined) ∧
    (∀ p m h w o e, p.model = some m → m.disposed = true →
      detect p h w o e = .error .engineDisposed) ∧
    (∀ p h w o e, detect p h w o e ≠ .error .invalidState) := by
  refine ⟨fun p h w o e hm => by simp [detect, hm],
          fun p m h w o e hm hd => by simp [detect, hm, hd], ?_⟩
  intro p h w o e
  rcases p with ⟨params, fps0, m⟩
  match m with
  | none => simp [detect]
  | some md =>
    by_cases hd : md.disposed <;> cases o <;> simp [detect, hd]

/-- Witness for C6 at concrete states: an unloaded and a disposed pipeline
each yield the stated non-`InvalidStateError` failures. -/
theorem detect_state_machine_errors_witness :
    detect (mkObjectDetection defaultParams) 7 9 .fail 1 =
      .error .typeErrorUndefined ∧
    detect (dispose (readyPipeline defaultParams none)) 7 9 .fail 1 =
      .error .engineDisposed :=
  ⟨detect_state_machine_errors.1 _ 7 9 .fail 1 rfl,
   detect_state_machine_errors.2.1 _ _ 7 9 .fail 1 rfl rfl⟩

/-- C7 (code bug): on the failure exit path — `model.executeAsync`
rejecting — the `.then` callback holding every `dispose` call is skipped,
so the preprocessed `batched` tensor stays live after `detect` completes;
on the success path every transient tensor is released. -/
theorem detect_batched_tensor_leak (h : TensorHeap) :
    (detectTensors false h).1.live = (detectTensors false h).2 :: h.live ∧
    (detectTensors false h).2 ∈ (detectTensors false h).1.live ∧
    (detectTensors true h).1.live = h.live := by
  refine ⟨rfl, by simp [detectTensors, TensorHeap.alloc], ?_⟩
  have h1 : h.next + 1 ≠ h.next := by omega
  have h2 : h.next + 1 + 1 ≠ h.next := by omega
  have h3 : h.next + 1 + 1 ≠ h.next + 1 := by omega
  simp [detectTensors, TensorHeap.alloc, TensorHeap.release,
    List.erase_cons, h1, h2, h3]

/-- Witness for C7 on the empty heap: after a failing call the batched
tensor (id 0) is still live; after a successful call nothing is. -/
theorem detect_batched_tensor_leak_witness :
    (detectTensors false ⟨0, []⟩).1.live = [(detectTensors false ⟨0, []⟩).2] ∧
    (detectTensors true ⟨0, []⟩).1.live = [] :=
  ⟨(detect_batched_tensor_leak ⟨0, []⟩).1,
   (detect_batched_tensor_leak ⟨0, []⟩).2.2⟩

/-- C9 counterexample: before `load` has run, no `detect` call has
completed, yet `getFPS` returns the undefined `fps` field (`none`), not
`0`: the constructor never initialises `fps`. -/
theorem getFPS_before_load_counterexample :
    getFPS (mkObjectDetection defaultParams) = none ∧
    (none : Option JsNumber) ≠ some (.finite 0) :=
  ⟨rfl, by simp⟩

/-- C9 (amended): `getFPS` returns `0` once `load` completes and before
any `detect` call, and after a successful `detect` call it returns that
call's value `Math.round(1000 / elapsedMs)`; but before `load` runs the
`fps` field is still undefined, since only `load` initialises it. -/
theorem getFPS_semantics :
    (∀ p p', load p true = .ok p' → getFPS p' = some (.finite 0)) ∧
    (∀ params fps0 h w sc s1 s2 bx b1 b3 e p' preds,
      detect (readyPipeline params fps0) h w (.ok sc s1 s2 bx b1 b3) e =
        .ok (p', preds) →
      getFPS p' = some (jsRound (jsDiv (.finite 1000) (.finite e)))) ∧
    (∀ params fps0 h w sc s1 s2 bx b1 b3 e p' preds, e ≠ 0 →
      detect (readyPipeline params fps0) h w (.ok sc s1 s2 bx b1 b3) e =
        .ok (p', preds) →
      getFPS p' = some (.finite ((⌊1000 / e + 1/2⌋ : ℤ) : ℚ))) := by
  refine ⟨?_, ?_, ?_⟩
  · intro p p' hld
    simp only [load, if_pos] at hld
    cases hld
    rfl
  · intro params fps0 h w sc s1 s2 bx b1 b3 e p' preds hrun
    simp only [detect, readyPipeline] at hrun
    norm_num at hrun
    obtain ⟨hp, _⟩ := hrun
    simp [getFPS, ← hp]
  · intro params fps0 h w sc s1 s2 bx b1 b3 e p' preds he hrun
    simp only [detect, readyPipeline, jsDiv, if_neg he, jsRound] at hrun
    norm_num at hrun
    obtain ⟨hp, _⟩ := hrun
    simp [getFPS, ← hp]

/-- Witness for C9: a concrete successful `detect` run taking 10 ms stores
FPS 100, which `getFPS` then returns. -/
theorem getFPS_semantics_witness :
    getFPS (readyPipeline defaultParams
      (some (jsRound (jsDiv (.finite 1000) (.finite 10))))) =
    some (jsRound (jsDiv (.finite 1000) (.finite 10))) :=
  getFPS_semantics.2.1 defaultParams (some (.finite 0)) 200 100
    [995/1000] 1 1 [1/10, 2/10, 6/10, 5/10] 1 4 10 _
    [{ bbox := [20, 20, 30, 100], cls := 0, score := 995/1000 }]
    (by norm_num [detect, readyPipeline, defaultParams, calculateMaxScores,
      maxScan, numberMinValue, List.range_succ, nonMaxSuppression,
      List.insertionSort, List.orderedInsert, nmsGo, iou, interArea, boxArea,
      boxAt, buildDetectedObjects, jsRound, jsDiv, Int.floor_eq_iff])

/-- C1 counterexample: a flip-enabled `detect` call (default parameters
have `flipHorizontal = true`) on a 100-wide frame returns the box
`[20, 20, 30, 100]` — the plain pixel mapping of the normalized box
`[0.1, 0.2, 0.6, 0.5]` — while un-mirroring that box into the original
frame would give x = 50, so the returned coordinates are not
un-mirrored. -/
theorem detect_flip_output_not_unmirrored_counterexample :
    defaultParams.flipHorizontal = true ∧
    Except.map (fun r => (Prod.snd r).map (fun p => p.bbox))
      (detect (readyPipeline defaultParams none) 200 100
        (.ok [995/1000] 1 1 [1/10, 2/10, 6/10, 5/10] 1 4) 10) =
      .ok [[20, 20, 30, 100]] ∧
    toPixelBoxMirrored (boxAt [1/10, 2/10, 6/10, 5/10] 0) 100 200 =
      [50, 20, 30, 100] ∧
    ([[20, 20, 30, 100]] : List (List ℚ)) ≠ [[50, 20, 30, 100]] := by
  refine ⟨rfl, ?_, ?_, by norm_num⟩
  · norm_num [detect, readyPipeline, defaultParams, calculateMaxScores,
      maxScan, numberMinValue, List.range_succ, nonMaxSuppression,
      List.insertionSort, List.orderedInsert, nmsGo, iou, interArea, boxArea,
      boxAt, buildDetectedObjects, jsRound, jsDiv, Except.map]
  · norm_num [toPixelBoxMirrored, toPixelBox, boxAt]

/-- C1 (amended): with `flipHorizontal = true` the frame is mirrored
horizontally (axis-1 reverse) before the resize and inference, but the
returned bounding-box coordinates are not un-mirrored: the detections are
computed identically whatever `flipHorizontal` is, so they stay in the
mirrored frame's coordinate space (`renderPredictions` compensates by
drawing the frame mirrored). -/
theorem detect_mirrors_input_not_output :
    (∀ (α : Type) (resize : List (List α) → List (List α))
      (frame : List (List α)),
      preprocess true resize frame = resize (frame.map List.reverse)) ∧
    (∀ (params : ModelParams) (fps0 : Option JsNumber)
      (m : Option GraphModel) (h w : ℕ) (o : InferOutcome) (e : ℚ),
      Except.map Prod.snd
        (detect (Pipeline.mk { params with flipHorizontal := true } fps0 m)
          h w o e) =
      Except.map Prod.snd
        (detect (Pipeline.mk { params with flipHorizontal := false } fps0 m)
          h w o e)) := by
  refine ⟨fun α resize frame => rfl, ?_⟩
  intro params fps0 m h w o e
  rcases params with ⟨flip, os, isf, mnb, iouT, scoreT⟩
  match m with
  | none => rfl
  | some md =>
    by_cases hd : md.disposed <;> cases o <;> simp [detect, hd, Except.map]

/-- Witness for C1 at a concrete frame: mirroring a 1-row, 3-pixel frame
with the identity resize reverses the row. -/
theorem detect_mirrors_input_not_output_witness :
    preprocess true (fun img => img) [[(1 : ℚ), 2, 3]] = [[3, 2, 1]] := by
  have h := detect_mirrors_input_not_output.1 ℚ (fun img => img) [[1, 2, 3]]
  simpa using h

/-- C5: `buildDetectedObjects` maps every selected index to the pixel box
`toPixelBox` of its normalized box — `x = minX*width`, `y = minY*height`,
`w = maxX*width - x`, `h = maxY*height - y` — with the stated concrete
value, and a successful `detect` call applies this mapping with the
original frame width and height it was given (never resized
dimensions). -/
theorem buildDetectedObjects_uses_toPixelBox :
    (∀ (width height : ℚ) (boxes scores : List ℚ) (indexes : List ℕ)
      (classes : List ℤ),
      (buildDetectedObjects width height boxes scores indexes classes).map
        (fun p => p.bbox) =
      indexes.map (fun idx => toPixelBox (boxAt boxes idx) width height)) ∧
    toPixelBox ⟨1/10, 2/10, 6/10, 8/10⟩ 100 200 = [20, 20, 60, 100] ∧
    (∀ params fps0 h w sc s1 s2 bx b1 b3 e p' preds,
      detect (readyPipeline params fps0) h w (.ok sc s1 s2 bx b1 b3) e =
        .ok (p', preds) →
      preds.map (fun p => p.bbox) =
      (nonMaxSuppression bx sc params.maxNumBoxes params.iouThreshold
        params.scoreThreshold).map
        (fun idx => toPixelBox (boxAt bx idx) (w : ℚ) (h : ℚ))) := by
  have hmap : ∀ (width height : ℚ) (boxes scores : List ℚ)
      (indexes : List ℕ) (classes : List ℤ),
      (buildDetectedObjects width height boxes scores indexes classes).map
        (fun p => p.bbox) =
      indexes.map (fun idx => toPixelBox (boxAt boxes idx) width height) := by
    intro width height boxes scores indexes classes
    simp only [buildDetectedObjects, List.map_map]
    apply List.map_congr_left
    intro idx _
    simp [toPixelBox, Function.comp]
  refine ⟨hmap, by norm_num [toPixelBox], ?_⟩
  intro params fps0 h w sc s1 s2 bx b1 b3 e p' preds hrun
  simp only [detect, readyPipeline] at hrun
  norm_num at hrun
  obtain ⟨_, hpreds⟩ := hrun
  rw [← hpreds, hmap]

/-- Witness for C5: the concrete `detect` run returns exactly the
`toPixelBox` images of the selected normalized boxes under the original
frame dimensions 100 x 200. -/
theorem buildDetectedObjects_uses_toPixelBox_witness :
    ([{ bbox := [20, 20, 30, 100], cls := 0, score := 995/1000 }] :
        List Prediction).map (fun p => p.bbox) =
    (nonMaxSuppression [1/10, 2/10, 6/10, 5/10] [995/1000]
        defaultParams.maxNumBoxes defaultParams.iouThreshold
        defaultParams.scoreThreshold).map
      (fun idx =>
        toPixelBox (boxAt [1/10, 2/10, 6/10, 5/10] idx) (100 : ℚ) (200 : ℚ)) :=
  buildDetectedObjects_uses_toPixelBox.2.2 defaultParams (some (.finite 0))
    200 100 [995/1000] 1 1 [1/10, 2/10, 6/10, 5/10] 1 4 10
    (readyPipeline defaultParams (some (.finite 100))) _
    (by norm_num [detect, readyPipeline, defaultParams, calculateMaxScores,
      maxScan, numberMinValue, List.range_succ, nonMaxSuppression,
      List.insertionSort, List.orderedInsert, nmsGo, iou, interArea, boxArea,
      boxAt, buildDetectedObjects, jsRound, jsDiv, Int.floor_eq_iff])

/-- The running-maximum scan of one box either keeps the sentinel pair
(when every entry is at most `Number.MIN_VALUE`, the initial maximum) or
returns the value and index of the first entry attaining the strict
maximum of the scanned prefix. -/
theorem maxScan_spec (f : ℕ → ℚ) (n : ℕ) :
    (maxScan f n = (numberMinValue, -1) ∧ ∀ j, j < n → f j ≤ numberMinValue) ∨
    ∃ jc : ℕ, jc < n ∧ maxScan f n = (f jc, (jc : ℤ)) ∧
      numberMinValue < f jc ∧ (∀ j, j < n → f j ≤ f jc) ∧
      ∀ j, j < jc → f j < f jc := by
  induction n with
  | zero => exact .inl ⟨rfl, fun j hj => absurd hj (Nat.not_lt_zero j)⟩
  | succ n ih =>
    rcases ih with ⟨hm, hall⟩ | ⟨jc, hjc, hm, hpos, hmax, hfirst⟩
    · by_cases hf : numberMinValue < f n
      · refine .inr ⟨n, Nat.lt_succ_self n, ?_, hf, ?_, ?_⟩
        · simp [maxScan, hm, hf]
        · intro j hj
          rcases Nat.lt_succ_iff_lt_or_eq.mp hj with h | h
          · exact (hall j h).trans hf.le
          · exact h ▸ le_refl _
        · intro j hj
          exact lt_of_le_of_lt (hall j hj) hf
      · refine .inl ⟨by simp [maxScan, hm, hf], ?_⟩
        intro j hj
        rcases Nat.lt_succ_iff_lt_or_eq.mp hj with h | h
        · exact hall j h
        · exact h ▸ not_lt.mp hf
    · by_cases hf : f jc < f n
      · refine .inr ⟨n, Nat.lt_succ_self n, ?_, hpos.trans hf, ?_, ?_⟩
        · simp [maxScan, hm, hf]
        · intro j hj
          rcases Nat.lt_succ_iff_lt_or_eq.mp hj with h | h
          · exact (hmax j h).trans hf.le
          · exact h ▸ le_refl _
        · intro j hj
          exact lt_of_le_of_lt (hmax j hj) hf
      · refine .inr ⟨jc, Nat.lt_succ_of_lt hjc, ?_, hpos, ?_, hfirst⟩
        · simp [maxScan, hm, hf]
        · intro j hj
          rcases Nat.lt_succ_iff_lt_or_eq.mp hj with h | h
          · exact hmax j h
          · exact h ▸ not_lt.mp hf

/-- The entries of the two lists returned by `calculateMaxScores` are the
components of the per-box scan. -/
theorem calculateMaxScores_getD (scores : List ℚ) (numBoxes numClasses i : ℕ)
    (hi : i < numBoxes) :
    (calculateMaxScores scores numBoxes numClasses).1.getD i 0 =
      (maxScan (fun j => scores.getD (i * numClasses + j) 0) numClasses).1 ∧
    (calculateMaxScores scores numBoxes numClasses).2.getD i 0 =
      (maxScan (fun j => scores.getD (i * numClasses + j) 0) numClasses).2 := by
  unfold calculateMaxScores
  constructor <;>
    simp [List.getD, List.getElem?_map, List.getElem?_range, hi]

/-- C3 counterexample: on the buffer `[0]` with one box and one class, the
claimed result is the maximum `0` attained first at class `0`, but
`calculateMaxScores` keeps its sentinels: the entry `0` is not strictly
greater than the initial maximum `Number.MIN_VALUE = 2 ^ (-1074)`, so the
returned best class is `-1` and the returned score is the sentinel, not
the actual maximum. -/
theorem calculateMaxScores_sentinel_counterexample :
    calculateMaxScores [0] 1 1 = ([numberMinValue], [-1]) ∧
    numberMinValue ≠ 0 ∧ ([-1] : List ℤ) ≠ [0] := by
  refine ⟨?_, ?_, by decide⟩
  · norm_num [calculateMaxScores, maxScan, numberMinValue, List.range_succ]
  · norm_num [numberMinValue]

/-- C3 (amended): for every box whose entries include one strictly above
`Number.MIN_VALUE` (the initial running maximum), `calculateMaxScores`
returns that box's maximum score and the first (lowest) class index
attaining it, ties resolving to the lowest index because the comparison is
a strict `>`; boxes all of whose entries are at most `Number.MIN_VALUE`
keep the sentinels instead. -/
theorem calculateMaxScores_first_max (scores : List ℚ)
    (numBoxes numClasses i : ℕ) (hi : i < numBoxes)
    (hpos : ∃ j, j < numClasses ∧
      numberMinValue < scores.getD (i * numClasses + j) 0) :
    ∃ jc : ℕ, jc < numClasses ∧
      (calculateMaxScores scores numBoxes numClasses).1.getD i 0 =
        scores.getD (i * numClasses + jc) 0 ∧
      (calculateMaxScores scores numBoxes numClasses).2.getD i 0 = (jc : ℤ) ∧
      (∀ j, j < numClasses → scores.getD (i * numClasses + j) 0 ≤
        scores.getD (i * numClasses + jc) 0) ∧
      (∀ j, j < jc → scores.getD (i * numClasses + j) 0 <
        scores.getD (i * numClasses + jc) 0) := by
  obtain ⟨j0, hj0, hgt⟩ := hpos
  obtain ⟨h1, h2⟩ := calculateMaxScores_getD scores numBoxes numClasses i hi
  rcases maxScan_spec (fun j => scores.getD (i * numClasses + j) 0) numClasses
    with ⟨hm, hall⟩ | ⟨jc, hjc, hm, _, hmax, hfirst⟩
  · exact absurd hgt (not_lt.mpr (hall j0 hj0))
  · exact ⟨jc, hjc, by rw [h1, hm], by rw [h2, hm], hmax, hfirst⟩

/-- Witness for C3 at the spec's synthetic 2-box, 3-class buffer
`[0.1, 0.9, 0.2, 0.5, 0.5, 0.3]`, box 1 (the tie case): the maximum `0.5`
is attained first at class `0`. -/
theorem calculateMaxScores_first_max_witness :
    ∃ jc : ℕ, jc < 3 ∧
      (calculateMaxScores [1/10, 9/10, 2/10, 5/10, 5/10, 3/10] 2 3).1.getD 1 0 =
        ([1/10, 9/10, 2/10, 5/10, 5/10, 3/10] : List ℚ).getD (1 * 3 + jc) 0 ∧
      (calculateMaxScores [1/10, 9/10, 2/10, 5/10, 5/10, 3/10] 2 3).2.getD 1 0 =
        (jc : ℤ) ∧
      (∀ j, j < 3 → ([1/10, 9/10, 2/10, 5/10, 5/10, 3/10] : List ℚ).getD
        (1 * 3 + j) 0 ≤
        ([1/10, 9/10, 2/10, 5/10, 5/10, 3/10] : List ℚ).getD (1 * 3 + jc) 0) ∧
      (∀ j, j < jc → ([1/10, 9/10, 2/10, 5/10, 5/10, 3/10] : List ℚ).getD
        (1 * 3 + j) 0 <
        ([1/10, 9/10, 2/10, 5/10, 5/10, 3/10] : List ℚ).getD (1 * 3 + jc) 0) :=
  calculateMaxScores_first_max [1/10, 9/10, 2/10, 5/10, 5/10, 3/10] 2 3 1
    (by norm_num) ⟨0, by norm_num, by norm_num [numberMinValue]⟩

/-- Intersection area is symmetric. -/
theorem interArea_comm (a b : NBox) : interArea a b = interArea b a := by
  unfold interArea
  rw [min_comm a.yMax, max_comm a.yMin, min_comm a.xMax, max_comm a.xMin]

/-- Intersection-over-union is symmetric. -/
theorem iou_comm (a b : NBox) : iou a b = iou b a := by
  unfold iou
  rw [interArea_comm, add_comm (boxArea a)]

/-- The greedy selection returns a sublist of its candidate list. -/
theorem nmsGo_sublist (getBox : ℕ → NBox) (t : ℚ) :
    ∀ (k : ℕ) (l : List ℕ), List.Sublist (nmsGo getBox t l k) l := by
  intro k
  induction k with
  | zero => intro l; cases l <;> simp [nmsGo]
  | succ k ih =>
    intro l
    cases l with
    | nil => simp [nmsGo]
    | cons c cs =>
      simp only [nmsGo]
      exact List.Sublist.cons₂ c ((ih _).trans (List.filter_sublist cs))

/-- The greedy selection accepts at most `k` boxes. -/
theorem nmsGo_length (getBox : ℕ → NBox) (t : ℚ) :
    ∀ (k : ℕ) (l : List ℕ), (nmsGo getBox t l k).length ≤ k := by
  intro k
  induction k with
  | zero => intro l; cases l <;> simp [nmsGo]
  | succ k ih =>
    intro l
    cases l with
    | nil => simp [nmsGo]
    | cons c cs =>
      simp only [nmsGo, List.length_cons]
      exact Nat.succ_le_succ (ih _)

/-- Any two boxes accepted by the greedy selection overlap by at most the
threshold: each later acceptance survived the test against each earlier
one. -/
theorem nmsGo_pairwise (getBox : ℕ → NBox) (t : ℚ) :
    ∀ (k : ℕ) (l : List ℕ), (nmsGo getBox t l k).Pairwise
      (fun a b => iou (getBox b) (getBox a) ≤ t) := by
  intro k
  induction k with
  | zero => intro l; cases l <;> simp [nmsGo]
  | succ k ih =>
    intro l
    cases l with
    | nil => simp [nmsGo]
    | cons c cs =>
      simp only [nmsGo]
      refine List.pairwise_cons.mpr ⟨?_, ih _⟩
      intro b hb
      have hbf := (nmsGo_sublist getBox t k _).subset hb
      rw [List.mem_filter] at hbf
      exact of_decide_eq_true hbf.2

/-- Greedy maximality: a candidate that is not selected was either shut out
by the size cap or overlaps some selected box beyond the threshold. -/
theorem nmsGo_greedy (getBox : ℕ → NBox) (t : ℚ) :
    ∀ (k : ℕ) (l : List ℕ) (i : ℕ), i ∈ l → i ∉ nmsGo getBox t l k →
      (nmsGo getBox t l k).length = k ∨
      ∃ j ∈ nmsGo getBox t l k, t < iou (getBox i) (getBox j) := by
  intro k
  induction k with
  | zero =>
    intro l i hil _
    left
    cases l <;> simp [nmsGo]
  | succ k ih =>
    intro l i hil hout
    cases l with
    | nil => cases hil
    | cons c cs =>
      simp only [nmsGo] at hout ⊢
      have hic : i ≠ c := fun h => hout (h ▸ List.mem_cons_self c _)
      have hics : i ∈ cs := (List.mem_cons.mp hil).resolve_left hic
      by_cases hP : iou (getBox i) (getBox c) ≤ t
      · have hif : i ∈ cs.filter
            (fun j => decide (iou (getBox j) (getBox c) ≤ t)) := by
          rw [List.mem_filter]
          exact ⟨hics, decide_eq_true hP⟩
        have hout2 : i ∉ nmsGo getBox t
            (cs.filter (fun j => decide (iou (getBox j) (getBox c) ≤ t))) k :=
          fun h => hout (List.mem_cons_of_mem _ h)
        rcases ih _ i hif hout2 with h | ⟨j, hj, hiou⟩
        · left
          simp [h]
        · right
          exact ⟨j, List.mem_cons_of_mem _ hj, hiou⟩
      · right
        exact ⟨c, List.mem_cons_self _ _, not_le.mp hP⟩

/-- Membership in the candidate list built by `nonMaxSuppression`. -/
theorem mem_nms_candidates (scores : List ℚ) (scoreThreshold : ℚ) (i : ℕ) :
    i ∈ (List.range scores.length).filter
      (fun i => decide (scoreThreshold ≤ scores.getD i 0)) ↔
    i < scores.length ∧ scoreThreshold ≤ scores.getD i 0 := by
  rw [List.mem_filter, List.mem_range, decide_eq_true_eq]
set_option maxHeartbeats 1600000 in
/-- C2: the index sequence selected by non-max suppression satisfies:
(a) every selected index is a valid score index whose score is not below
`scoreThreshold`; (b) no two selected boxes have intersection-over-union
exceeding `iouThreshold`; (c) the selection is emitted in descending score
order, and greedily: a candidate above the score threshold that is not
selected was either shut out by the size cap or overlaps a selected box
beyond the threshold; (d) at most `maxOutputSize` indexes are returned.
In particular, of two boxes with IoU above the threshold and distinct
scores above the score threshold only the higher-scoring one survives, and
two boxes with IoU below the threshold both survive with
`maxOutputSize = 2`. -/
theorem nonMaxSuppression_spec (boxes scores : List ℚ) (maxOutputSize : ℕ)
    (iouThreshold scoreThreshold : ℚ) :
    (∀ i ∈ nonMaxSuppression boxes scores maxOutputSize iouThreshold
      scoreThreshold, i < scores.length ∧ scoreThreshold ≤ scores.getD i 0) ∧
    List.Pairwise
      (fun a b => iou (boxAt boxes a) (boxAt boxes b) ≤ iouThreshold)
      (nonMaxSuppression boxes scores maxOutputSize iouThreshold
        scoreThreshold) ∧
    List.Pairwise (fun a b => scores.getD b 0 ≤ scores.getD a 0)
      (nonMaxSuppression boxes scores maxOutputSize iouThreshold
        scoreThreshold) ∧
    (∀ i, i < scores.length → scoreThreshold ≤ scores.getD i 0 →
      i ∉ nonMaxSuppression boxes scores maxOutputSize iouThreshold
        scoreThreshold →
      (nonMaxSuppression boxes scores maxOutputSize iouThreshold
        scoreThreshold).length = maxOutputSize ∨
      ∃ j ∈ nonMaxSuppression boxes scores maxOutputSize iouThreshold
        scoreThreshold, iouThreshold < iou (boxAt boxes i) (boxAt boxes j)) ∧
    (nonMaxSuppression boxes scores maxOutputSize iouThreshold
      scoreThreshold).length ≤ maxOutputSize ∧
    nonMaxSuppression [0, 0, 1, 1, 0, 0, 1, 1] [9/10, 8/10] 2 (1/2) (1/10) =
      [0] ∧
    nonMaxSuppression [0, 0, 1, 1, 0, 2, 1, 3] [9/10, 8/10] 2 (1/2) (1/10) =
      [0, 1] := by
  haveI inst1 : IsTotal ℕ (fun a b => scores.getD b 0 ≤ scores.getD a 0) :=
    ⟨fun a b => le_total _ _⟩
  haveI inst2 : IsTrans ℕ (fun a b => scores.getD b 0 ≤ scores.getD a 0) :=
    ⟨fun a b c h1 h2 => le_trans h2 h1⟩
  simp only [nonMaxSuppression]
  refine ⟨?_, ?_, ?_, ?_, nmsGo_length _ _ _ _, ?_, ?_⟩
  · intro i hi
    have hs := (nmsGo_sublist _ _ _ _).subset hi
    rw [List.mem_insertionSort] at hs
    exact (mem_nms_candidates scores scoreThreshold i).mp hs
  · refine List.Pairwise.imp ?_ (nmsGo_pairwise (boxAt boxes) iouThreshold _ _)
    intro a b h
    rw [iou_comm]
    exact h
  · exact List.Pairwise.sublist (nmsGo_sublist _ _ _ _)
      (List.sorted_insertionSort _ _)
  · intro i hlen hsc hnot
    have hc : i ∈ (List.range scores.length).filter
        (fun i => decide (scoreThreshold ≤ scores.getD i 0)) :=
      (mem_nms_candidates scores scoreThreshold i).mpr ⟨hlen, hsc⟩
    rw [← List.mem_insertionSort
      (fun a b => scores.getD b 0 ≤ scores.getD a 0)] at hc
    exact nmsGo_greedy (boxAt boxes) iouThreshold maxOutputSize _ i hc hnot
  · norm_num [nonMaxSuppression, List.range_succ, List.insertionSort,
      List.orderedInsert, nmsGo, iou, interArea, boxArea, boxAt]
  · norm_num [nonMaxSuppression, List.range_succ, List.insertionSort,
      List.orderedInsert, nmsGo, iou, interArea, boxArea, boxAt]

/-- Witness for C2: the two particular two-box cases — overlapping boxes
keep only the higher-scoring index 0, disjoint boxes keep both. -/
theorem nonMaxSuppression_spec_witness :
    nonMaxSuppression [0, 0, 1, 1, 0, 0, 1, 1] [9/10, 8/10] 2 (1/2) (1/10) =
      [0] ∧
    nonMaxSuppression [0, 0, 1, 1, 0, 2, 1, 3] [9/10, 8/10] 2 (1/2) (1/10) =
      [0, 1] :=
  ⟨(nonMaxSuppression_spec [0, 0, 1, 1, 0, 0, 1, 1] [9/10, 8/10] 2 (1/2)
      (1/10)).2.2.2.2.2.1,
   (nonMaxSuppression_spec [0, 0, 1, 1, 0, 2, 1, 3] [9/10, 8/10] 2 (1/2)
      (1/10)).2.2.2.2.2.2⟩

end Handtrack
